import Mathlib

/-!
Verification of the `cpp_tagged_pointer` repository: a type-tagged pointer
(`TaggedPointer<Ts...>` in `src/tagged_pointer.h`) packing a 59-bit address
and a type tag into one 64-bit word, with batched visitor dispatch
(`detail::dispatch_call` in `src/include/dispatch_call.h`).

Shallow embedding conventions:
- `uintptr_t` values are `Nat` below `2 ^ 64`; `unsigned` values are `Nat`
  below `2 ^ 32`.  Wherever C++ unsigned arithmetic can wrap, the reduction
  modulo `2 ^ 32` or `2 ^ 64` is written explicitly.
- Candidate C++ types are modelled as elements of an arbitrary type `α` with
  decidable equality; `std::nullptr_t` is a distinguished element `nullT`
  that is not in the candidate list.  A typed pointer is modelled by its
  address (a `Nat`), since the embedding tracks which static type an address
  is viewed at separately (as the index passed to the visitor).
- The visitor `func` of `call` / `dispatch_call` is modelled as a function
  `Nat → Nat → R`: first argument the zero-based index of the candidate type
  that the C++ code `static_cast`s the pointer to, second argument the
  address passed; one common result type `R`, as the source requires.
-/

/-- Word width of `uintptr_t` (the source static_asserts `sizeof(uintptr_t) >= 8`). -/
def UINTPTR_BITS : Nat := 64

/-- Modulus of `uintptr_t` arithmetic. -/
def UINTPTR_MOD : Nat := 2 ^ UINTPTR_BITS

/-- Modulus of C++ `unsigned` arithmetic (32-bit `unsigned int`). -/
def UINT_MOD : Nat := 2 ^ 32

/-- `TAG_SHIFT` from `tagged_pointer.h`: the least significant bit of the tag
starts at bit 59 of `tagged_address`. -/
def TAG_SHIFT : Nat := 59

/-- `GET_PTR_MASK` from `tagged_pointer.h`: the bitmask with the lowest
`TAG_SHIFT` bits set, `(uintptr_t(1) << TAG_SHIFT) - 1`. -/
def GET_PTR_MASK : Nat := (1 <<< TAG_SHIFT) - 1

/-- `detail::IndexOfType_v T Ts`: the zero-based index of the type `T` in the
list `Ts`, following the template recursion in `tagged_pointer.h`
(base case `IndexOfType<T, T, Ts...> = 0`; recursive case
`IndexOfType<T, T2, Ts...> = 1 + IndexOfType<T, Ts...>`).  The source has no
specialization for an empty pack (such an instantiation does not compile), so
the `[]` case below is never reached for a `T` contained in the list. -/
def IndexOfType_v {α : Type} [DecidableEq α] (T : α) : List α → Nat
  | [] => 0
  | T2 :: Ts => if T = T2 then 0 else 1 + IndexOfType_v T Ts

/-- The state of a `TaggedPointer<Ts...>`: the single data member
`uintptr_t tagged_address`.  C++ guarantees `tagged_address < 2 ^ 64`;
theorems add that bound where it matters. -/
structure TaggedPointer where
  tagged_address : Nat
deriving DecidableEq, Repr

/-- `TaggedPointer::tag()`: `static_cast<unsigned>(tagged_address >> TAG_SHIFT)`.
The cast to 32-bit `unsigned` is the explicit `% UINT_MOD`. -/
def TaggedPointer.tag (tp : TaggedPointer) : Nat :=
  (tp.tagged_address >>> TAG_SHIFT) % UINT_MOD

/-- `TaggedPointer::ptr()`: `tagged_address & GET_PTR_MASK`, the decoded
address returned as an untyped pointer (both const and non-const overloads
compute the same address). -/
def TaggedPointer.ptr (tp : TaggedPointer) : Nat :=
  tp.tagged_address &&& GET_PTR_MASK

/-- `TaggedPointer::get_tag_of_type<T>()`: `IndexOfType_v<T, nullptr_t, Ts...>`,
i.e. the zero-based index of `T` in the list `nullT :: Ts`. -/
def get_tag_of_type {α : Type} [DecidableEq α] (nullT : α) (Ts : List α) (T : α) : Nat :=
  IndexOfType_v T (nullT :: Ts)

/-- The packed word built by the pointer constructor
`TaggedPointer(const T *ptr)`:
`reinterpret_cast<uintptr_t>(ptr) | (uintptr_t(get_tag_of_type<T>()) << TAG_SHIFT)`.
The left shift is `uintptr_t` arithmetic, hence the explicit `% UINTPTR_MOD`;
`addr` is already a `uintptr_t` value (below `2 ^ 64`). -/
def encode (tag addr : Nat) : Nat :=
  addr ||| ((tag <<< TAG_SHIFT) % UINTPTR_MOD)

/-- `TaggedPointer::TaggedPointer(const T *ptr)` for a candidate type `T` of
the list `Ts` (the `requires detail::ContainsType<T, Ts...>` clause restricts
`T` to the list): packs `addr` with the tag of `T`. -/
def TaggedPointer.ofPtr {α : Type} [DecidableEq α] (nullT : α) (Ts : List α)
    (T : α) (addr : Nat) : TaggedPointer :=
  ⟨encode (get_tag_of_type nullT Ts T) addr⟩

/-- `TaggedPointer::TaggedPointer(std::nullptr_t)` (and, through it, the
default constructor): `tagged_address{0}`. -/
def TaggedPointer.ofNullptr : TaggedPointer := ⟨0⟩

/-- `TaggedPointer::TaggedPointer()`: delegates to the `nullptr` constructor. -/
def TaggedPointer.defaultCtor : TaggedPointer := TaggedPointer.ofNullptr

/-- `TaggedPointer::points_to_type<T>()`: `tag() == get_tag_of_type<T>()`. -/
def TaggedPointer.points_to_type {α : Type} [DecidableEq α] (nullT : α)
    (Ts : List α) (T : α) (tp : TaggedPointer) : Bool :=
  tp.tag == get_tag_of_type nullT Ts T

/-- `TaggedPointer::cast<T>()`:
`points_to_type<T>() ? static_cast<T*>(ptr()) : nullptr`.  The returned `T*`
is modelled as `Option Nat`: `some` of the decoded address, or `none` for
`nullptr`.  The `static_cast` changes only the static type of the pointer,
not its address. -/
def TaggedPointer.cast {α : Type} [DecidableEq α] (nullT : α) (Ts : List α)
    (T : α) (tp : TaggedPointer) : Option Nat :=
  if tp.points_to_type nullT Ts T then some tp.ptr else none

/-- `TaggedPointer::cast_unchecked<T>()`: `static_cast<T*>(ptr())`, with no
tag check of any kind.  The `static_cast` changes only the static type: the
address of the returned pointer is `ptr()`, whatever `T` is. -/
def TaggedPointer.cast_unchecked {α : Type} [DecidableEq α] (nullT : α)
    (Ts : List α) (T : α) (tp : TaggedPointer) : Nat :=
  tp.ptr

/-- `TaggedPointer::operator==`: `tagged_address == other.tagged_address`. -/
def TaggedPointer.beq (tp other : TaggedPointer) : Bool :=
  tp.tagged_address == other.tagged_address

/-- `TaggedPointer::operator!=`: `tagged_address != other.tagged_address`. -/
def TaggedPointer.bne (tp other : TaggedPointer) : Bool :=
  tp.tagged_address != other.tagged_address

/-- `detail::dispatch_call<Func, Ts...>(func, ptr, type_index)` from
`dispatch_call.h`, with the candidate type list abstracted to its length `N`
and the visitor `f` taking the zero-based index of the type it is
instantiated at (so the recursive call for packs of more than 8 types shifts
the visitor by 8, mirroring the template recursion on the remaining types).
Overloads exist for every pack size from 1 to 8 (a `switch` whose `default`
case selects the last type of the pack) and for more than 8 types (a
`switch` over the first 8 types whose `default` case recurses on the
remaining types with `type_index - 8`; that subtraction is unsigned but the
branch is only reached for `type_index >= 8`, so plain `Nat` subtraction is
faithful).  There is no overload for an empty pack — such a call does not
compile — so the `0` case below is unreachable and modelled arbitrarily. -/
def dispatch_call {R : Type} : Nat → (Nat → Nat → R) → Nat → Nat → R
  | 0, f, p, _ => f 0 p
  | 1, f, p, _ => f 0 p
  | 2, f, p, i =>
    if i = 0 then f 0 p else f 1 p
  | 3, f, p, i =>
    if i = 0 then f 0 p else if i = 1 then f 1 p else f 2 p
  | 4, f, p, i =>
    if i = 0 then f 0 p else if i = 1 then f 1 p else if i = 2 then f 2 p
    else f 3 p
  | 5, f, p, i =>
    if i = 0 then f 0 p else if i = 1 then f 1 p else if i = 2 then f 2 p
    else if i = 3 then f 3 p else f 4 p
  | 6, f, p, i =>
    if i = 0 then f 0 p else if i = 1 then f 1 p else if i = 2 then f 2 p
    else if i = 3 then f 3 p else if i = 4 then f 4 p else f 5 p
  | 7, f, p, i =>
    if i = 0 then f 0 p else if i = 1 then f 1 p else if i = 2 then f 2 p
    else if i = 3 then f 3 p else if i = 4 then f 4 p else if i = 5 then f 5 p
    else f 6 p
  | 8, f, p, i =>
    if i = 0 then f 0 p else if i = 1 then f 1 p else if i = 2 then f 2 p
    else if i = 3 then f 3 p else if i = 4 then f 4 p else if i = 5 then f 5 p
    else if i = 6 then f 6 p else f 7 p
  | (n + 9), f, p, i =>
    if i = 0 then f 0 p else if i = 1 then f 1 p else if i = 2 then f 2 p
    else if i = 3 then f 3 p else if i = 4 then f 4 p else if i = 5 then f 5 p
    else if i = 6 then f 6 p else if i = 7 then f 7 p
    else dispatch_call (n + 1) (fun j q => f (8 + j) q) p (i - 8)

/-- `TaggedPointer::call(Func &&func)` (const and non-const overloads have
identical bodies): `dispatch_call<Func, Ts...>(func, ptr(), tag() - 1)`.
`tag()` is `unsigned`, so `tag() - 1` wraps modulo `2 ^ 32`; since
`tag() < 2 ^ 32` always holds, that subtraction is
`(tag() + (2 ^ 32 - 1)) % 2 ^ 32`.  `N` is the pack size `sizeof...(Ts)`. -/
def TaggedPointer.call {R : Type} (N : Nat) (tp : TaggedPointer)
    (f : Nat → Nat → R) : R :=
  dispatch_call N f tp.ptr ((tp.tag + (UINT_MOD - 1)) % UINT_MOD)

/-- State-passing reading of the member function `call`: the body of `call`
contains no write to `tagged_address` (its only accesses to the object are
the reads `ptr()` and `tag()`), so the post-state of the receiver is the
receiver itself, for the const overload and the non-const overload alike. -/
def TaggedPointer.callWithState {R : Type} (N : Nat) (tp : TaggedPointer)
    (f : Nat → Nat → R) : R × TaggedPointer :=
  (tp.call N f, tp)

/- ### Codec arithmetic -/

/-- For a tag below 32 and an address below `2 ^ 59`, the packed word is the
exact sum `tag * 2 ^ 59 + addr` (the two bit fields are disjoint and the
`uintptr_t` shift does not overflow). -/
theorem encode_eq_add {t a : Nat} (ht : t < 32) (ha : a < 2 ^ 59) :
    encode t a = t * 2 ^ 59 + a := by
  have hshift : t <<< TAG_SHIFT = t * 2 ^ 59 := by
    rw [Nat.shiftLeft_eq]; rfl
  have hlt : t * 2 ^ 59 < UINTPTR_MOD := by
    show t * 2 ^ 59 < 2 ^ UINTPTR_BITS
    calc t * 2 ^ 59 < 32 * 2 ^ 59 := by
          exact (Nat.mul_lt_mul_right (by norm_num)).mpr ht
      _ = 2 ^ UINTPTR_BITS := by norm_num [UINTPTR_BITS]
  have hor : 2 ^ 59 * t + a = 2 ^ 59 * t ||| a := Nat.mul_add_lt_is_or ha t
  unfold encode
  rw [hshift, Nat.mod_eq_of_lt hlt, Nat.or_comm, mul_comm t (2 ^ 59), ← hor]

/-- Decoding the tag field: `tag()` of a word `t * 2 ^ 59 + a` with
`t < 32` and `a < 2 ^ 59` is `t`. -/
theorem tag_of_add {t a : Nat} (ht : t < 32) (ha : a < 2 ^ 59) :
    TaggedPointer.tag ⟨t * 2 ^ 59 + a⟩ = t := by
  unfold TaggedPointer.tag
  show ((t * 2 ^ 59 + a) >>> TAG_SHIFT) % UINT_MOD = t
  rw [Nat.shiftRight_eq_div_pow]
  have hdiv : (t * 2 ^ 59 + a) / 2 ^ 59 = t := by
    rw [Nat.mul_comm, Nat.mul_add_div (by norm_num), Nat.div_eq_of_lt ha,
      Nat.add_zero]
  show (t * 2 ^ 59 + a) / 2 ^ 59 % UINT_MOD = t
  rw [hdiv]
  exact Nat.mod_eq_of_lt (lt_trans ht (by norm_num [UINT_MOD]))

/-- Decoding the address field: `ptr()` of a word `t * 2 ^ 59 + a` with
`a < 2 ^ 59` is `a`. -/
theorem ptr_of_add {t a : Nat} (ha : a < 2 ^ 59) :
    TaggedPointer.ptr ⟨t * 2 ^ 59 + a⟩ = a := by
  unfold TaggedPointer.ptr GET_PTR_MASK
  have hmask : (1 <<< TAG_SHIFT : Nat) = 2 ^ 59 := by
    rw [Nat.shiftLeft_eq]; rfl
  rw [hmask, Nat.and_pow_two_sub_one_eq_mod]
  rw [Nat.add_comm, Nat.add_mul_mod_self_right]
  exact Nat.mod_eq_of_lt ha

/-- C1.  Codec round-trip: for every tag `t` in `[0, 31]` (the tags
representable in the 5 high bits above `TAG_SHIFT = 59`) and every address
`a` whose bits at or above bit 59 are all zero (`a < 2 ^ 59`), the word
packed by the constructor (`encode t a`) decodes back exactly: `tag()`
returns `t` and `ptr()` returns `a`. -/
theorem encode_decode_roundtrip (t a : Nat) (ht : t ≤ 31) (ha : a < 2 ^ 59) :
    TaggedPointer.tag ⟨encode t a⟩ = t ∧ TaggedPointer.ptr ⟨encode t a⟩ = a := by
  have ht32 : t < 32 := Nat.lt_succ_of_le ht
  rw [encode_eq_add ht32 ha]
  exact ⟨tag_of_add ht32 ha, ptr_of_add ha⟩

/-- Witness for C1 at tag 3, address 4096. -/
theorem encode_decode_roundtrip_witness :
    (3 ≤ 31 ∧ 4096 < 2 ^ 59) ∧
      TaggedPointer.tag ⟨encode 3 4096⟩ = 3 ∧
      TaggedPointer.ptr ⟨encode 3 4096⟩ = 4096 :=
  ⟨⟨by norm_num, by norm_num⟩, encode_decode_roundtrip 3 4096 (by norm_num) (by norm_num)⟩

/-- C7.  Null default: the default-constructed `TaggedPointer` and the one
constructed from `nullptr` both have packed word 0, hence `tag() = 0` and
`ptr() = 0` (the null address). -/
theorem null_default :
    TaggedPointer.defaultCtor.tagged_address = 0 ∧
      TaggedPointer.ofNullptr.tagged_address = 0 ∧
      TaggedPointer.defaultCtor.tag = 0 ∧
      TaggedPointer.defaultCtor.ptr = 0 ∧
      TaggedPointer.ofNullptr.tag = 0 ∧
      TaggedPointer.ofNullptr.ptr = 0 := by
  refine ⟨rfl, rfl, ?_, ?_, ?_, ?_⟩ <;> rfl

/- ### Dispatch routing -/

/-- The batched switch of `dispatch_call` selects, for a nonempty pack of `N`
types and any `type_index` `i`, the type at index `min i (N - 1)`: in-range
indices route to their own type, and out-of-range indices fall through the
`default` cases down to the last type of the pack. -/
theorem dispatch_call_min {R : Type} :
    ∀ (N : Nat) (f : Nat → Nat → R) (p i : Nat), 1 ≤ N →
      dispatch_call N f p i = f (min i (N - 1)) p
  | 0, _, _, _, h => absurd h (by decide)
  | 1, f, p, i, _ => by
    simp only [dispatch_call]
    exact congrFun (congrArg f (by omega)) p
  | 2, f, p, i, _ => by
    simp only [dispatch_call]
    split_ifs <;> exact congrFun (congrArg f (by omega)) p
  | 3, f, p, i, _ => by
    simp only [dispatch_call]
    split_ifs <;> exact congrFun (congrArg f (by omega)) p
  | 4, f, p, i, _ => by
    simp only [dispatch_call]
    split_ifs <;> exact congrFun (congrArg f (by omega)) p
  | 5, f, p, i, _ => by
    simp only [dispatch_call]
    split_ifs <;> exact congrFun (congrArg f (by omega)) p
  | 6, f, p, i, _ => by
    simp only [dispatch_call]
    split_ifs <;> exact congrFun (congrArg f (by omega)) p
  | 7, f, p, i, _ => by
    simp only [dispatch_call]
    split_ifs <;> exact congrFun (congrArg f (by omega)) p
  | 8, f, p, i, _ => by
    simp only [dispatch_call]
    split_ifs <;> exact congrFun (congrArg f (by omega)) p
  | (n + 9), f, p, i, _ => by
    simp only [dispatch_call]
    split_ifs with h0 h1 h2 h3 h4 h5 h6 h7
    · exact congrFun (congrArg f (by omega)) p
    · exact congrFun (congrArg f (by omega)) p
    · exact congrFun (congrArg f (by omega)) p
    · exact congrFun (congrArg f (by omega)) p
    · exact congrFun (congrArg f (by omega)) p
    · exact congrFun (congrArg f (by omega)) p
    · exact congrFun (congrArg f (by omega)) p
    · exact congrFun (congrArg f (by omega)) p
    · rw [dispatch_call_min (n + 1) (fun j q => f (8 + j) q) p (i - 8) (by omega)]
      show f (8 + min (i - 8) n) p = f (min i (n + 9 - 1)) p
      exact congrFun (congrArg f (by omega)) p

/-- `tag()` always returns a value below `2 ^ 32` (it is a C++ `unsigned`). -/
theorem tag_lt_uint_mod (tp : TaggedPointer) : tp.tag < UINT_MOD :=
  Nat.mod_lt _ (by norm_num [UINT_MOD])

/-- The `unsigned` index `tag() - 1` passed by `call` to `dispatch_call`,
for a non-null tag, is the exact `tag() - 1`. -/
theorem call_index_of_pos (tp : TaggedPointer) (h1 : 1 ≤ tp.tag) :
    (tp.tag + (UINT_MOD - 1)) % UINT_MOD = tp.tag - 1 := by
  have hlt := tag_lt_uint_mod tp
  have hmod : UINT_MOD = 4294967296 := by norm_num [UINT_MOD]
  rw [hmod] at hlt ⊢
  omega

/-- C2.  Dispatch correctness: for a `TaggedPointer` over `N ≥ 1` candidate
types whose tag `t` is non-null and in range (`1 ≤ t ≤ N`), `call func`
returns `func` applied to the decoded address viewed at the candidate type of
zero-based index `t - 1`; instrumenting the visitor with a singleton trace
shows `func` is invoked exactly once, with exactly those arguments; and the
batched switch of `dispatch_call` routes every in-range index `i < N` to the
`i`-th type (including packs larger than the batch size 8). -/
theorem call_dispatch_correct {R : Type} (N : Nat) (tp : TaggedPointer)
    (f : Nat → Nat → R) (hN : 1 ≤ N) (h1 : 1 ≤ tp.tag) (h2 : tp.tag ≤ N) :
    tp.call N f = f (tp.tag - 1) tp.ptr ∧
      tp.tag - 1 < N ∧
      tp.call N (fun j q => [(j, q)]) = [(tp.tag - 1, tp.ptr)] ∧
      (∀ i, i < N → ∀ p, dispatch_call N f p i = f i p) := by
  have hidx := call_index_of_pos tp h1
  refine ⟨?_, by omega, ?_, ?_⟩
  · unfold TaggedPointer.call
    rw [hidx, dispatch_call_min N f tp.ptr (tp.tag - 1) hN]
    exact congrFun (congrArg f (by omega)) tp.ptr
  · unfold TaggedPointer.call
    rw [hidx, dispatch_call_min N (fun j q => [(j, q)]) tp.ptr (tp.tag - 1) hN]
    show [(min (tp.tag - 1) (N - 1), tp.ptr)] = [(tp.tag - 1, tp.ptr)]
    have : min (tp.tag - 1) (N - 1) = tp.tag - 1 := by omega
    rw [this]
  · intro i hi p
    rw [dispatch_call_min N f p i hN]
    exact congrFun (congrArg f (by omega)) p

/-- Witness for C2 over a pack of 10 candidate types (exceeding the batch
size 8) with tag 10 and address 4096. -/
theorem call_dispatch_correct_witness :
    (1 ≤ 10 ∧ 1 ≤ (TaggedPointer.mk (encode 10 4096)).tag ∧
        (TaggedPointer.mk (encode 10 4096)).tag ≤ 10) ∧
      (TaggedPointer.mk (encode 10 4096)).call 10 (fun j q => (j, q)) =
        ((TaggedPointer.mk (encode 10 4096)).tag - 1,
          (TaggedPointer.mk (encode 10 4096)).ptr) :=
  ⟨⟨by decide, by decide, by decide⟩,
    (call_dispatch_correct 10 (TaggedPointer.mk (encode 10 4096))
      (fun j q => (j, q)) (by decide) (by decide) (by decide)).1⟩

/-- C9.  Dispatch does not mutate: in the state-passing reading of the member
function `call` (whose body contains no write to `tagged_address`), the
post-state of the receiver is the receiver itself: the packed word, the tag
and the decoded address observed after the call are those observed before,
and the returned value is exactly the `call` result. -/
theorem call_no_mutation {R : Type} (N : Nat) (tp : TaggedPointer)
    (f : Nat → Nat → R) :
    (tp.callWithState N f).2 = tp ∧
      (tp.callWithState N f).1 = tp.call N f ∧
      (tp.callWithState N f).2.tagged_address = tp.tagged_address ∧
      (tp.callWithState N f).2.tag = tp.tag ∧
      (tp.callWithState N f).2.ptr = tp.ptr :=
  ⟨rfl, rfl, rfl, rfl, rfl⟩

/-- C10.  Out-of-range dispatch clamps to the last type: `dispatch_call` is
total in `type_index`, and every index at or above `N - 1` lands in the
`default` branches, invoking the visitor at the last type (index `N - 1`).
Consequently `call` on a null reference (tag 0) passes the wrapped `unsigned`
index `0 - 1 = 2 ^ 32 - 1` and — the pack size `N` being at most `2 ^ 32`
(in the design, at most 31) — invokes the visitor with the null address
viewed at the last candidate type instead of failing fast. -/
theorem dispatch_clamps_null_call {R : Type} (N : Nat) (f : Nat → Nat → R)
    (p i : Nat) (hN : 1 ≤ N) (hNmax : N ≤ 2 ^ 32) (hi : N - 1 ≤ i) :
    dispatch_call N f p i = f (N - 1) p ∧
      TaggedPointer.ofNullptr.tag = 0 ∧
      (TaggedPointer.ofNullptr.tag + (UINT_MOD - 1)) % UINT_MOD = 2 ^ 32 - 1 ∧
      TaggedPointer.ofNullptr.call N f = f (N - 1) 0 := by
  have hwrap : (TaggedPointer.ofNullptr.tag + (UINT_MOD - 1)) % UINT_MOD
      = 2 ^ 32 - 1 := by decide
  refine ⟨?_, rfl, hwrap, ?_⟩
  · rw [dispatch_call_min N f p i hN]
    exact congrFun (congrArg f (by omega)) p
  · unfold TaggedPointer.call
    rw [hwrap, dispatch_call_min N f TaggedPointer.ofNullptr.ptr (2 ^ 32 - 1) hN]
    show f (min (2 ^ 32 - 1) (N - 1)) TaggedPointer.ofNullptr.ptr = f (N - 1) 0
    have hmin : min (2 ^ 32 - 1) (N - 1) = N - 1 := by
      have h32 : (2 : Nat) ^ 32 = 4294967296 := by norm_num
      rw [h32] at hNmax ⊢
      omega
    rw [hmin]
    rfl

/-- Witness for C10 with a pack of 3 types, index 7 (well past the last
type, index 2), and the null reference. -/
theorem dispatch_clamps_null_call_witness :
    (1 ≤ 3 ∧ (3 : Nat) ≤ 2 ^ 32 ∧ 3 - 1 ≤ 7) ∧
      dispatch_call 3 (fun j q => (j, q)) 4096 7 = ((2 : Nat), (4096 : Nat)) ∧
      TaggedPointer.ofNullptr.call 3 (fun j q => (j, q)) = ((2 : Nat), (0 : Nat)) := by
  have h := dispatch_clamps_null_call 3 (fun j q => ((j : Nat), (q : Nat))) 4096 7
    (by decide) (by norm_num) (by decide)
  exact ⟨⟨by decide, by norm_num, by decide⟩, h.1, h.2.2.2⟩

/- ### Type index resolution -/

/-- `IndexOfType_v` recovers positions: in a duplicate-free list, the element
at zero-based position `k` has index `k`. -/
theorem IndexOfType_v_get {α : Type} [DecidableEq α] :
    ∀ (Ts : List α), Ts.Nodup → ∀ (k : Nat) (hk : k < Ts.length),
      IndexOfType_v (Ts.get ⟨k, hk⟩) Ts = k := by
  intro Ts
  induction Ts with
  | nil => intro _ k hk; exact absurd hk (by simp)
  | cons T2 rest ih =>
    intro hnd k hk
    cases k with
    | zero => simp [IndexOfType_v]
    | succ k =>
      have hk2 : k < rest.length := by simpa using hk
      have hmem : rest.get ⟨k, hk2⟩ ∈ rest := List.get_mem rest k hk2
      have hne : rest.get ⟨k, hk2⟩ ≠ T2 := by
        intro h
        rw [h] at hmem
        exact (List.nodup_cons.mp hnd).1 hmem
      show IndexOfType_v (rest.get ⟨k, hk2⟩) (T2 :: rest) = k + 1
      rw [IndexOfType_v, if_neg hne, ih (List.nodup_cons.mp hnd).2 k hk2]
      omega

/-- `get_tag_of_type` of a candidate type at zero-based position `k` is
`k + 1` (its one-indexed position), provided the candidate list has no
duplicates and does not contain the null type. -/
theorem get_tag_of_type_get {α : Type} [DecidableEq α] (nullT : α)
    (Ts : List α) (hnd : Ts.Nodup) (hnull : nullT ∉ Ts)
    (k : Nat) (hk : k < Ts.length) :
    get_tag_of_type nullT Ts (Ts.get ⟨k, hk⟩) = k + 1 := by
  have hne : Ts.get ⟨k, hk⟩ ≠ nullT := by
    intro h
    exact hnull (h ▸ List.get_mem Ts k hk)
  unfold get_tag_of_type
  rw [IndexOfType_v, if_neg hne, IndexOfType_v_get Ts hnd k hk]
  omega

/-- `get_tag_of_type` of the null type is 0. -/
theorem get_tag_of_type_null {α : Type} [DecidableEq α] (nullT : α)
    (Ts : List α) : get_tag_of_type nullT Ts nullT = 0 := by
  unfold get_tag_of_type
  rw [IndexOfType_v, if_pos rfl]

/-- C3.  Tag identity: over a duplicate-free candidate list `Ts` (of at most
31 types, so every tag fits the 5 tag bits) not containing the null type, the
candidate at zero-based position `k` has `get_tag_of_type` equal to its
one-indexed position `k + 1`, the null type has tag 0, and a `TaggedPointer`
constructed from a pointer of that candidate type (address below `2 ^ 59`)
has `tag()` equal to `get_tag_of_type` of that type, `points_to_type` true
at that type, and `points_to_type` false at every other candidate type. -/
theorem tag_identity {α : Type} [DecidableEq α] (nullT : α) (Ts : List α)
    (hnd : Ts.Nodup) (hnull : nullT ∉ Ts) (hlen : Ts.length ≤ 31)
    (k : Nat) (hk : k < Ts.length) (addr : Nat) (ha : addr < 2 ^ 59) :
    get_tag_of_type nullT Ts (Ts.get ⟨k, hk⟩) = k + 1 ∧
      get_tag_of_type nullT Ts nullT = 0 ∧
      (TaggedPointer.ofPtr nullT Ts (Ts.get ⟨k, hk⟩) addr).tag
        = get_tag_of_type nullT Ts (Ts.get ⟨k, hk⟩) ∧
      TaggedPointer.points_to_type nullT Ts (Ts.get ⟨k, hk⟩)
        (TaggedPointer.ofPtr nullT Ts (Ts.get ⟨k, hk⟩) addr) = true ∧
      (∀ j (hj : j < Ts.length), j ≠ k →
        TaggedPointer.points_to_type nullT Ts (Ts.get ⟨j, hj⟩)
          (TaggedPointer.ofPtr nullT Ts (Ts.get ⟨k, hk⟩) addr) = false) := by
  have htagk := get_tag_of_type_get nullT Ts hnd hnull k hk
  have htag_lt : get_tag_of_type nullT Ts (Ts.get ⟨k, hk⟩) ≤ 31 := by omega
  have hdecode :
      (TaggedPointer.ofPtr nullT Ts (Ts.get ⟨k, hk⟩) addr).tag
        = get_tag_of_type nullT Ts (Ts.get ⟨k, hk⟩) :=
    (encode_decode_roundtrip _ addr htag_lt ha).1
  refine ⟨htagk, get_tag_of_type_null nullT Ts, hdecode, ?_, ?_⟩
  · unfold TaggedPointer.points_to_type
    rw [hdecode]
    exact beq_self_eq_true _
  · intro j hj hjk
    have htagj := get_tag_of_type_get nullT Ts hnd hnull j hj
    unfold TaggedPointer.points_to_type
    rw [hdecode, htagk, htagj]
    simp only [beq_eq_false_iff_ne, ne_eq]
    omega

/-- Witness for C3: candidate list `[10, 20, 30]` over `Nat` with null
element 0, candidate position 1, address 4096. -/
theorem tag_identity_witness :
    (([10, 20, 30] : List Nat).Nodup ∧ (0 : Nat) ∉ ([10, 20, 30] : List Nat) ∧
        ([10, 20, 30] : List Nat).length ≤ 31 ∧ 1 < ([10, 20, 30] : List Nat).length ∧
        (4096 : Nat) < 2 ^ 59) ∧
      get_tag_of_type 0 [10, 20, 30] 20 = 2 ∧
      (TaggedPointer.ofPtr 0 [10, 20, 30] 20 4096).tag = 2 ∧
      TaggedPointer.points_to_type 0 [10, 20, 30] 20
        (TaggedPointer.ofPtr 0 [10, 20, 30] 20 4096) = true ∧
      TaggedPointer.points_to_type 0 [10, 20, 30] 10
        (TaggedPointer.ofPtr 0 [10, 20, 30] 20 4096) = false ∧
      TaggedPointer.points_to_type 0 [10, 20, 30] 30
        (TaggedPointer.ofPtr 0 [10, 20, 30] 20 4096) = false := by
  have h := tag_identity (0 : Nat) [10, 20, 30] (by decide) (by decide)
    (by decide) 1 (by decide) 4096 (by norm_num)
  refine ⟨⟨by decide, by decide, by decide, by decide, by norm_num⟩,
    h.1, ?_, h.2.2.2.1, ?_, ?_⟩
  · exact h.2.2.1.trans h.1
  · exact h.2.2.2.2 0 (by decide) (by decide)
  · exact h.2.2.2.2 2 (by decide) (by decide)

/- ### Safe and unsafe casts, equality, capacity -/

/-- C5.  Safe cast: for every `TaggedPointer` and candidate type `T`,
`cast<T>()` returns the decoded address as a typed pointer exactly when the
current tag equals `get_tag_of_type<T>()`, and returns the null pointer
(absence) exactly when it does not; any pointer it returns is the decoded
address.  Absence is an ordinary return value — `cast` is total and raises
nothing. -/
theorem safe_cast {α : Type} [DecidableEq α] (nullT : α) (Ts : List α)
    (T : α) (hT : T ∈ Ts) (tp : TaggedPointer) :
    (tp.cast nullT Ts T = some tp.ptr ↔ tp.tag = get_tag_of_type nullT Ts T) ∧
      (tp.cast nullT Ts T = none ↔ tp.tag ≠ get_tag_of_type nullT Ts T) ∧
      (∀ q, tp.cast nullT Ts T = some q → q = tp.ptr) := by
  unfold TaggedPointer.cast TaggedPointer.points_to_type
  by_cases h : tp.tag = get_tag_of_type nullT Ts T
  · simp [h]
  · simp [h]

/-- Witness for C5: a reference over `[10, 20, 30]` holding the type at
position 0 (tag 1): `cast` at the matching type returns the address, `cast`
at another candidate type returns absence. -/
theorem safe_cast_witness :
    ((10 : Nat) ∈ ([10, 20, 30] : List Nat) ∧ (20 : Nat) ∈ ([10, 20, 30] : List Nat)) ∧
      (TaggedPointer.ofPtr 0 [10, 20, 30] 10 4096).cast 0 [10, 20, 30] 10
        = some (TaggedPointer.ofPtr 0 [10, 20, 30] 10 4096).ptr ∧
      (TaggedPointer.ofPtr 0 [10, 20, 30] 10 4096).cast 0 [10, 20, 30] 20 = none := by
  refine ⟨⟨by decide, by decide⟩, ?_, ?_⟩
  · exact (safe_cast (0 : Nat) [10, 20, 30] 10 (by decide)
      (TaggedPointer.ofPtr 0 [10, 20, 30] 10 4096)).1.mpr (by decide)
  · exact (safe_cast (0 : Nat) [10, 20, 30] 20 (by decide)
      (TaggedPointer.ofPtr 0 [10, 20, 30] 10 4096)).2.1.mpr (by decide)

/-- C6.  Equality: `operator==` holds exactly when the whole packed words are
bit-identical and `operator!=` exactly when they differ; on words packed from
in-range tag/address pairs, equality holds exactly when both the tag and the
address match — so equal addresses with different tags compare unequal, and
equal tags with different addresses compare unequal. -/
theorem equality_iff_word {t1 a1 t2 a2 : Nat} (ht1 : t1 ≤ 31) (ha1 : a1 < 2 ^ 59)
    (ht2 : t2 ≤ 31) (ha2 : a2 < 2 ^ 59) :
    (∀ r1 r2 : TaggedPointer,
        (r1.beq r2 = true ↔ r1.tagged_address = r2.tagged_address) ∧
        (r1.bne r2 = true ↔ r1.tagged_address ≠ r2.tagged_address)) ∧
      (TaggedPointer.beq ⟨encode t1 a1⟩ ⟨encode t2 a2⟩ = true ↔ t1 = t2 ∧ a1 = a2) ∧
      (TaggedPointer.bne ⟨encode t1 a1⟩ ⟨encode t2 a2⟩ = true ↔ ¬(t1 = t2 ∧ a1 = a2)) := by
  have he1 := encode_eq_add (Nat.lt_succ_of_le ht1) ha1
  have he2 := encode_eq_add (Nat.lt_succ_of_le ht2) ha2
  have hkey : encode t1 a1 = encode t2 a2 ↔ (t1 = t2 ∧ a1 = a2) := by
    rw [he1, he2]
    constructor
    · intro h
      constructor <;> omega
    · intro h
      rw [h.1, h.2]
  refine ⟨?_, ?_, ?_⟩
  · intro r1 r2
    constructor
    · simp [TaggedPointer.beq]
    · simp [TaggedPointer.bne]
  · simpa [TaggedPointer.beq] using hkey
  · simpa [TaggedPointer.bne] using hkey.not

/-- Witness for C6: same address 4096 under tags 1 and 2 compares unequal;
same tag 1 at addresses 4096 and 8192 compares unequal; identical words
compare equal. -/
theorem equality_iff_word_witness :
    ((1 : Nat) ≤ 31 ∧ (2 : Nat) ≤ 31 ∧ (4096 : Nat) < 2 ^ 59 ∧ (8192 : Nat) < 2 ^ 59) ∧
      TaggedPointer.bne ⟨encode 1 4096⟩ ⟨encode 2 4096⟩ = true ∧
      TaggedPointer.bne ⟨encode 1 4096⟩ ⟨encode 1 8192⟩ = true ∧
      TaggedPointer.beq ⟨encode 1 4096⟩ ⟨encode 1 4096⟩ = true := by
  refine ⟨⟨by norm_num, by norm_num, by norm_num, by norm_num⟩, ?_, ?_, ?_⟩
  · exact (equality_iff_word (by norm_num) (by norm_num : (4096 : Nat) < 2 ^ 59)
      (by norm_num) (by norm_num : (4096 : Nat) < 2 ^ 59)).2.2.mpr (by omega)
  · exact (equality_iff_word (by norm_num) (by norm_num : (4096 : Nat) < 2 ^ 59)
      (by norm_num) (by norm_num : (8192 : Nat) < 2 ^ 59)).2.2.mpr (by omega)
  · exact (equality_iff_word (by norm_num) (by norm_num : (4096 : Nat) < 2 ^ 59)
      (by norm_num) (by norm_num : (4096 : Nat) < 2 ^ 59)).2.1.mpr (by omega)

/-- C8.  Unchecked cast: `cast_unchecked<T>()` returns the decoded address —
the packed word with the tag bits masked off — with no tag check: its result
equals `ptr()` for every reference and every candidate type `T`, whatever the
current tag, and on the null reference it returns the zero address. -/
theorem unchecked_cast_eq_ptr {α : Type} [DecidableEq α] (nullT : α)
    (Ts : List α) (T : α) (tp : TaggedPointer) :
    tp.cast_unchecked nullT Ts T = tp.ptr ∧
      tp.cast_unchecked nullT Ts T = tp.tagged_address &&& GET_PTR_MASK ∧
      TaggedPointer.ofNullptr.cast_unchecked nullT Ts T = 0 :=
  ⟨rfl, rfl, rfl⟩

/-- C4.  Capacity evaluation at the boundary: the 31-type instantiation works
(the 31st type gets tag 31, faithfully decoded), but nothing in the code
rejects a 32-type instantiation — the only `static_assert` concerns the width
of `uintptr_t`.  Constructing from a pointer of the 32nd type computes tag
32, whose `uintptr_t` shift `32 << 59` overflows to 0 modulo `2 ^ 64`: the
packed word equals the bare address and the reference decodes with `tag() = 0`,
silently masquerading as null rather than being rejected at build time. -/
theorem capacity_overflow_not_rejected :
    (List.range' 1 31).length = 31 ∧
      get_tag_of_type 0 (List.range' 1 31) 31 = 31 ∧
      (TaggedPointer.ofPtr 0 (List.range' 1 31) 31 4096).tag = 31 ∧
      (TaggedPointer.ofPtr 0 (List.range' 1 31) 31 4096).ptr = 4096 ∧
      (List.range' 1 32).length = 32 ∧
      get_tag_of_type 0 (List.range' 1 32) 32 = 32 ∧
      (TaggedPointer.ofPtr 0 (List.range' 1 32) 32 4096).tagged_address = 4096 ∧
      (TaggedPointer.ofPtr 0 (List.range' 1 32) 32 4096).tag = 0 := by
  refine ⟨by decide, by decide, ?_, ?_, by decide, by decide, ?_, ?_⟩ <;> decide
